import Mathlib

/-!
Verification of the request-audit capture pipeline of `nestjs-audit-logger`
(interceptor, token extraction, header sanitization, route exclusion, write
path, retention cleanup), shallowly embedded from the TypeScript source.

JavaScript-specific semantics are modelled explicitly:
* `undefined` is `Option.none`; a JS truthiness test on a string value is
  `truthyS` (absent and `""` are falsy);
* JS objects used as string maps are insertion-ordered association lists
  (`Obj`), with property read `objGet` and property write `objSet`;
* `a || b` on string values is `jsOrS`, `a ?? b` on options is `Option.getD`.
-/

namespace AuditLogger

/-- JS truthiness of an optional string value: `undefined` and `""` are falsy. -/
def truthyS : Option String → Bool
  | none => false
  | some s => s ≠ ""

/-- JS `a || b` over optional string values: the first operand when truthy, else the second. -/
def jsOrS (a b : Option String) : Option String :=
  if truthyS a then a else b

/-- JS `status || d` for an optional numeric status: falsy (absent or `0`) falls to the default. -/
def jsOrStatus (a : Option Nat) (d : Nat) : Nat :=
  match a with
  | none => d
  | some s => if s = 0 then d else s

/-- JS `s.includes(c)` for a single-character needle. -/
def hasChar (s : String) (c : Char) : Bool :=
  s.toList.contains c

/-- JS `s.toLowerCase()`, character by character (ASCII-adequate, which covers
every header name this library lowercases). -/
def lowerStr (s : String) : String :=
  String.mk (s.toList.map Char.toLower)

/-- Splitting on a single separator character, accumulator-based
(JS `s.split(sep)` for a one-character separator). -/
def splitCharAux (sep : Char) : List Char → List Char → List (List Char)
  | [], acc => [acc.reverse]
  | c :: t, acc =>
    if c = sep then acc.reverse :: splitCharAux sep t []
    else splitCharAux sep t (c :: acc)

/-- JS `s.split(sep)` for a one-character separator. -/
def splitChar (sep : Char) (s : String) : List String :=
  (splitCharAux sep s.toList []).map String.mk

/-- JS `s.startsWith(p)`. -/
def startsWithStr (s p : String) : Bool :=
  p.toList.isPrefixOf s.toList

/-- Whitespace characters of the JS regex class `\\s` (the common ones, plus the
line terminators; exotic Unicode spaces are outside the modelled subset). -/
def isJsWs (c : Char) : Bool :=
  c == ' ' || c == '\t' || c == '\n' || c == '\r' || c == '\x0b' || c == '\x0c' ||
  c == '\u00A0' || c == '\u2028' || c == '\u2029'

/-- Characters matched by the JS regex `.` (anything but a line terminator). -/
def isJsDotChar (c : Char) : Bool :=
  !(c == '\n' || c == '\r' || c == '\u2028' || c == '\u2029')

/-- JS `s.trim()`. -/
def trimStr (s : String) : String :=
  String.mk (((s.toList.dropWhile isJsWs).reverse.dropWhile isJsWs).reverse)

/-- Insertion-ordered JS object with string values, as an association list. -/
abbrev Obj := List (String × String)

/-- JS property read `o[k]`: the first entry with the given key. -/
def objGet (k : String) : Obj → Option String
  | [] => none
  | (k', v) :: t => if k' = k then some v else objGet k t

/-- JS property write `o[k] = v`: update the entry in place, append when absent. -/
def objSet (k v : String) : Obj → Obj
  | [] => [(k, v)]
  | (k', v') :: t => if k' = k then (k', v) :: t else (k', v') :: objSet k v t

/-! ### Header sanitizer (`sanitizeHeaders`, interceptor lines 602-626) -/

/-- The fixed redaction set of `sanitizeHeaders`. -/
def sensitiveHeaders : List String :=
  ["authorization", "cookie", "x-api-token", "x-auth-token", "x-access-token",
   "api-key", "apikey"]

/-- The constant redaction marker. -/
def REDACTED : String := "[REDACTED]"

/-- One conditional redaction step: `if (sanitized[k]) sanitized[k] = '[REDACTED]'`.
The JS truthiness test means a key whose value is `""` is left untouched. -/
def redactOne (k : String) (hs : Obj) : Obj :=
  if truthyS (objGet k hs) then objSet k REDACTED hs else hs

/-- The sanitizer `sanitizeHeaders`: spread-copy of the input, then for each sensitive name `h`
redact `h` and then `h.toLowerCase()` when their values are truthy. -/
def sanitizeHeaders (headers : Obj) : Obj :=
  sensitiveHeaders.foldl (fun acc h => redactOne (lowerStr h) (redactOne h acc)) headers

/-! ### Association-list lemmas -/

theorem objGet_objSet_self (k v : String) (hs : Obj) :
    objGet k (objSet k v hs) = some v := by
  induction hs with
  | nil => simp [objGet, objSet]
  | cons p t ih =>
    obtain ⟨k', v'⟩ := p
    by_cases h : k' = k
    · simp [objGet, objSet, h]
    · simp [objGet, objSet, h, ih]

theorem objGet_objSet_ne (k k' v : String) (hs : Obj) (h : k' ≠ k) :
    objGet k (objSet k' v hs) = objGet k hs := by
  induction hs with
  | nil => simp [objGet, objSet, h]
  | cons p t ih =>
    obtain ⟨a, b⟩ := p
    by_cases ha : a = k'
    · subst ha
      simp [objGet, objSet, h, Ne.symm h]
    · by_cases hk : a = k
      · simp [objGet, objSet, ha, hk, Ne.symm h]
      · simp [objGet, objSet, ha, hk, ih]

theorem objSet_objSet_self (k v w : String) (hs : Obj) :
    objSet k v (objSet k w hs) = objSet k v hs := by
  induction hs with
  | nil => simp [objSet]
  | cons p t ih =>
    obtain ⟨a, b⟩ := p
    by_cases ha : a = k
    · simp [objSet, ha]
    · simp [objSet, ha, ih]

theorem truthyS_isSome (o : Option String) (h : truthyS o = true) : o.isSome := by
  cases o with
  | none => simp [truthyS] at h
  | some v => simp

theorem objSet_comm (k k' v v' : String) (hs : Obj) (h : k ≠ k')
    (hk : (objGet k hs).isSome) (hk' : (objGet k' hs).isSome) :
    objSet k v (objSet k' v' hs) = objSet k' v' (objSet k v hs) := by
  induction hs with
  | nil => simp [objGet] at hk
  | cons p t ih =>
    obtain ⟨a, b⟩ := p
    by_cases ha : a = k
    · subst ha
      simp [objSet, h, Ne.symm h]
    · by_cases ha' : a = k'
      · subst ha'
        simp [objSet, ha, h, Ne.symm h]
      · simp only [objGet, if_neg ha] at hk
        simp only [objGet, if_neg ha'] at hk'
        simp [objSet, ha, ha', ih hk hk']

theorem objSet_of_objGet_eq (k v : String) (hs : Obj) (h : objGet k hs = some v) :
    objSet k v hs = hs := by
  induction hs with
  | nil => simp [objGet] at h
  | cons p t ih =>
    obtain ⟨a, b⟩ := p
    by_cases ha : a = k
    · simp [objGet, ha] at h
      simp [objSet, ha, h]
    · simp [objGet, ha] at h
      simp [objSet, ha, ih h]

theorem objSet_keys (k v : String) (hs : Obj) (h : (objGet k hs).isSome) :
    (objSet k v hs).map Prod.fst = hs.map Prod.fst := by
  induction hs with
  | nil => simp [objGet] at h
  | cons p t ih =>
    obtain ⟨a, b⟩ := p
    by_cases ha : a = k
    · simp [objSet, ha]
    · simp [objGet, ha] at h
      simp [objSet, ha, ih h]

/-! ### Redaction lemmas -/

theorem redactOne_objGet_ne (k k' : String) (hs : Obj) (h : k' ≠ k) :
    objGet k (redactOne k' hs) = objGet k hs := by
  unfold redactOne
  by_cases ht : truthyS (objGet k' hs)
  · simp [ht, objGet_objSet_ne _ _ _ _ h]
  · simp [ht]

theorem truthyS_REDACTED : truthyS (some REDACTED) = true := by decide

theorem redactOne_idem (k : String) (hs : Obj) :
    redactOne k (redactOne k hs) = redactOne k hs := by
  unfold redactOne
  by_cases ht : truthyS (objGet k hs)
  · simp [ht, objGet_objSet_self, truthyS_REDACTED, objSet_objSet_self]
  · simp [ht]

theorem redactOne_comm (a b : String) (hs : Obj) :
    redactOne a (redactOne b hs) = redactOne b (redactOne a hs) := by
  by_cases hab : a = b
  · subst hab; rfl
  · unfold redactOne
    by_cases hta : truthyS (objGet a hs) <;> by_cases htb : truthyS (objGet b hs) <;>
      simp [hta, htb, objGet_objSet_ne _ _ _ _ hab, objGet_objSet_ne _ _ _ _ (Ne.symm hab)]
    exact objSet_comm _ _ _ _ _ hab (truthyS_isSome _ hta) (truthyS_isSome _ htb)

/-- Folding single redactions over a list of keys. -/
def redactFold (ks : List String) (hs : Obj) : Obj :=
  ks.foldl (fun acc k => redactOne k acc) hs

theorem redactFold_nil (hs : Obj) : redactFold [] hs = hs := rfl

theorem redactFold_cons (k : String) (ks : List String) (hs : Obj) :
    redactFold (k :: ks) hs = redactFold ks (redactOne k hs) := rfl

theorem redactOne_redactFold (a : String) (ks : List String) (hs : Obj) :
    redactOne a (redactFold ks hs) = redactFold ks (redactOne a hs) := by
  induction ks generalizing hs with
  | nil => rfl
  | cons k ks ih =>
    rw [redactFold_cons, redactFold_cons, ih, redactOne_comm]

theorem redactFold_idem (ks : List String) (hs : Obj) :
    redactFold ks (redactFold ks hs) = redactFold ks hs := by
  induction ks generalizing hs with
  | nil => rfl
  | cons k ks ih =>
    rw [redactFold_cons, redactFold_cons, redactOne_redactFold, ← redactFold_cons,
      redactFold_cons, redactOne_idem, ih]

theorem sanitizeHeaders_eq_redactFold (hs : Obj) :
    sanitizeHeaders hs = redactFold sensitiveHeaders hs := by
  have step : ∀ (h : String) (acc : Obj), lowerStr h = h →
      redactOne (lowerStr h) (redactOne h acc) = redactOne h acc := by
    intro h acc hl
    rw [hl, redactOne_idem]
  show List.foldl (fun acc h => redactOne (lowerStr h) (redactOne h acc)) hs sensitiveHeaders =
    List.foldl (fun acc k => redactOne k acc) hs sensitiveHeaders
  simp only [sensitiveHeaders, List.foldl]
  rw [step _ _ (by decide), step _ _ (by decide), step _ _ (by decide), step _ _ (by decide),
    step _ _ (by decide), step _ _ (by decide), step _ _ (by decide)]

theorem objGet_redactFold (k : String) (ks : List String) (hs : Obj) :
    objGet k (redactFold ks hs) =
      if k ∈ ks ∧ truthyS (objGet k hs) then some REDACTED else objGet k hs := by
  induction ks generalizing hs with
  | nil => simp [redactFold_nil]
  | cons a ks ih =>
    rw [redactFold_cons, ih]
    by_cases hak : a = k
    · subst hak
      unfold redactOne
      by_cases ht : truthyS (objGet a hs)
      · simp [ht, objGet_objSet_self, truthyS_REDACTED]
      · simp [ht]
    · rw [redactOne_objGet_ne _ _ _ hak]
      have hka : k ≠ a := Ne.symm hak
      simp [List.mem_cons, hka]

theorem redactOne_keys (k : String) (hs : Obj) :
    (redactOne k hs).map Prod.fst = hs.map Prod.fst := by
  unfold redactOne
  by_cases ht : truthyS (objGet k hs)
  · have hsome : (objGet k hs).isSome := by
      cases h : objGet k hs with
      | none => rw [h] at ht; simp [truthyS] at ht
      | some v => simp
    simp [ht, objSet_keys _ _ _ hsome]
  · simp [ht]

theorem redactFold_keys (ks : List String) (hs : Obj) :
    (redactFold ks hs).map Prod.fst = hs.map Prod.fst := by
  induction ks generalizing hs with
  | nil => rfl
  | cons k ks ih =>
    rw [redactFold_cons, ih, redactOne_keys]

/-! ### Request model and token extraction (interceptor lines 405-556) -/

/-- An inbound HTTP request as the interceptor consumes it. Header keys are
stored lower-cased, as the HTTP framework normalizes them. -/
structure Request where
  method : String
  url : String
  headers : Obj
  query : Obj
  body : Option String
  connRemoteAddress : Option String
  sockRemoteAddress : Option String
  ip : Option String
deriving DecidableEq

/-- Model of `request.get(name)`: case-insensitive header lookup. -/
def Request.getHeader (req : Request) (name : String) : Option String :=
  objGet (lowerStr name) req.headers

/-- The part of `/^Bearer\s+(.+)$/` after the literal: a nonempty whitespace run
followed by a nonempty remainder of `.`-matchable characters, with the regex
engine's greedy-then-backtrack choice of the split. -/
def bearerRest (rest : List Char) : Option (List Char) :=
  let a := rest.takeWhile isJsWs
  let b := rest.dropWhile isJsWs
  if a.isEmpty then none
  else if b.isEmpty then
    match a.reverse with
    | c :: _ :: _ => if isJsDotChar c then some [c] else none
    | _ => none
  else if b.all isJsDotChar then some b else none

/-- Model of `authHeader.match(/^Bearer\s+(.+)$/i)`: the captured group when the header
matches, `none` otherwise. -/
def bearerToken (v : String) : Option String :=
  let cs := v.toList
  if (cs.take 6).map Char.toLower = "bearer".toList then
    match bearerRest (cs.drop 6) with
    | some g => some (String.mk g)
    | none => none
  else none

/-- The ordered custom header names tried after `Authorization`. -/
def customHeaderNames : List String :=
  ["x-api-token", "x-auth-token", "x-access-token", "api-key", "apikey"]

/-- The ordered query parameter names tried last. -/
def queryParamNames : List String := ["token", "apikey", "api_key", "access_token"]

/-- First truthy value of a list of candidates (each loop's `if (value) return value`). -/
def firstTruthy : List (Option String) → Option String
  | [] => none
  | v :: t => if truthyS v then v else firstTruthy t

/-- The source scan `extractTokenFromRequest`: Authorization header (Bearer-stripped when the
Bearer pattern matches, else raw), then the custom headers, then the query
parameters, first truthy value winning. -/
def extractTokenFromRequest (req : Request) : Option String :=
  let authHeader := req.getHeader "Authorization"
  if truthyS authHeader then
    let a := authHeader.getD ""
    match bearerToken a with
    | some t => some t
    | none => some a
  else
    match firstTruthy (customHeaderNames.map req.getHeader) with
    | some v => some v
    | none => firstTruthy (queryParamNames.map (fun p => objGet p req.query))

/-! ### `Buffer.from(s, 'base64url').toString()` -/

/-- Value of one base64 alphabet character; the url-safe and the standard
alphabet are both accepted, anything else (including `=` padding) is skipped,
matching Node's lenient decoder. -/
def b64CharVal (c : Char) : Option Nat :=
  if 'A' ≤ c ∧ c ≤ 'Z' then some (c.toNat - 65)
  else if 'a' ≤ c ∧ c ≤ 'z' then some (c.toNat - 97 + 26)
  else if '0' ≤ c ∧ c ≤ '9' then some (c.toNat - 48 + 52)
  else if c = '-' ∨ c = '+' then some 62
  else if c = '_' ∨ c = '/' then some 63
  else none

/-- Reassemble 6-bit groups into bytes (4 → 3, 3 → 2, 2 → 1, 1 → 0). -/
def b64Groups : List Nat → List Nat
  | a :: b :: c :: d :: t =>
    let n := ((a * 64 + b) * 64 + c) * 64 + d
    (n / 65536) :: (n / 256 % 256) :: (n % 256) :: b64Groups t
  | [a, b, c] =>
    let n := (a * 64 + b) * 64 + c
    [n / 1024, n / 4 % 256]
  | [a, b] => [(a * 64 + b) / 16]
  | _ => []

/-- Base64url decoding to a string; bytes are turned into characters directly,
which agrees with Node's UTF-8 `toString()` on the ASCII payloads involved. -/
def b64urlDecode (s : String) : String :=
  String.mk ((b64Groups (s.toList.filterMap b64CharVal)).map Char.ofNat)

/-! ### `JSON.parse`, for the flat string-valued objects the token heuristics
read. Anything outside that subset parses to `none`, which the callers treat
exactly like a `JSON.parse` exception. -/

/-- JSON insignificant whitespace. -/
def jsonSkipWs (cs : List Char) : List Char :=
  cs.dropWhile (fun c => c == ' ' || c == '\t' || c == '\n' || c == '\r')

/-- A double-quoted string literal without escapes; returns content and rest. -/
def jsonStrAux : List Char → List Char → Option (String × List Char)
  | [], _ => none
  | c :: t, acc =>
    if c = '"' then some (String.mk acc.reverse, t)
    else if c = '\\' then none
    else jsonStrAux t (c :: acc)

/-- Parse a leading string literal. -/
def jsonStr : List Char → Option (String × List Char)
  | '"' :: rest => jsonStrAux rest []
  | _ => none

/-- Parse `"key" : "value"` pairs separated by `,` up to the closing `}`,
accumulating with JS object semantics (a repeated key overwrites). -/
def jsonPairs : Nat → Obj → List Char → Option Obj
  | 0, _, _ => none
  | fuel + 1, acc, cs =>
    match jsonStr (jsonSkipWs cs) with
    | none => none
    | some (k, rest) =>
      match jsonSkipWs rest with
      | ':' :: rest' =>
        match jsonStr (jsonSkipWs rest') with
        | none => none
        | some (v, rest'') =>
          let acc' := objSet k v acc
          match jsonSkipWs rest'' with
          | ',' :: more => jsonPairs fuel acc' more
          | '\x7d' :: tail => if (jsonSkipWs tail).isEmpty then some acc' else none
          | _ => none
      | _ => none

/-- Model of `JSON.parse` on the modelled subset: one flat object of string fields. -/
def parseJsonFlat (s : String) : Option Obj :=
  match jsonSkipWs s.toList with
  | '\x7b' :: rest =>
    match jsonSkipWs rest with
    | '\x7d' :: tail => if (jsonSkipWs tail).isEmpty then some [] else none
    | body => jsonPairs (s.length + 1) [] body
  | _ => none

/-! ### Identity decoding (interceptor lines 504-556) -/

/-- Lookup `payload.sub || payload.userId || payload.id || payload.user_id`
(the JWT branch of `extractUserIdFromCustomToken`). -/
def idLookupJwt (o : Obj) : Option String :=
  jsOrS (jsOrS (jsOrS (objGet "sub" o) (objGet "userId" o)) (objGet "id" o))
    (objGet "user_id" o)

/-- Lookup `parsed.userId || parsed.id || parsed.user_id || parsed.sub`
(the JSON branch of `extractUserIdFromCustomToken`). -/
def idLookupJson (o : Obj) : Option String :=
  jsOrS (jsOrS (jsOrS (objGet "userId" o) (objGet "id" o)) (objGet "user_id" o))
    (objGet "sub" o)

/-- Lookup `payload.email || payload.user_email || payload.userEmail` (both branches). -/
def emailLookup (o : Obj) : Option String :=
  jsOrS (jsOrS (objGet "email" o) (objGet "user_email" o)) (objGet "userEmail" o)

/-- Middle part of a three-part dotted token. -/
def jwtMiddle (token : String) : String :=
  (splitChar '.' token).getD 1 ""

/-- The heuristic `extractUserIdFromCustomToken`: three-part dotted tokens decode the middle part
as base64url JSON; otherwise tokens whose first character is `{` parse whole;
decode failures and all other shapes yield `none` (the `catch` branch). -/
def extractUserIdFromCustomToken (token : String) : Option String :=
  if hasChar token '.' ∧ (splitChar '.' token).length = 3 then
    match parseJsonFlat (b64urlDecode (jwtMiddle token)) with
    | some o => idLookupJwt o
    | none => none
  else if startsWithStr token "\x7b" then
    match parseJsonFlat token with
    | some o => idLookupJson o
    | none => none
  else none

/-- The heuristic `extractEmailFromCustomToken`: same branch structure, email field priority. -/
def extractEmailFromCustomToken (token : String) : Option String :=
  if hasChar token '.' ∧ (splitChar '.' token).length = 3 then
    match parseJsonFlat (b64urlDecode (jwtMiddle token)) with
    | some o => emailLookup o
    | none => none
  else if startsWithStr token "\x7b" then
    match parseJsonFlat token with
    | some o => emailLookup o
    | none => none
  else none

/-! ### Configuration and assembled token info -/

/-- Per-call options carried by the audit marker (`AuditLogOptions`). -/
structure AuditLogOptions where
  serviceName : Option String := none
  description : Option String := none
  logRequestBody : Option Bool := none
  logResponseBody : Option Bool := none
deriving DecidableEq

/-- Global module options (`AuditLoggerModuleOptions`). -/
structure ModuleOptions where
  logRequestBody : Option Bool := none
  logResponseBody : Option Bool := none
  excludeRoutes : Option (List String) := none
  customTokenExtractor : Option (Request → Option String) := none
  customUserIdExtractor : Option (String → Option String) := none
  customUserEmailExtractor : Option (String → Option String) := none

/-- Result shape of `extractTokenInfo`. -/
structure TokenExtractionResult where
  token : Option String
  userId : Option String
  userEmail : Option String
deriving DecidableEq

/-- The assembler `extractTokenInfo`: a configured custom extractor replaces the built-in
source scan entirely; identity decoding runs only on a truthy token, each
field through its custom extractor when configured. -/
def extractTokenInfo (opts : ModuleOptions) (req : Request) : TokenExtractionResult :=
  let token := match opts.customTokenExtractor with
    | some f => f req
    | none => extractTokenFromRequest req
  if truthyS token then
    let t := token.getD ""
    { token := token
      userId := match opts.customUserIdExtractor with
        | some f => f t
        | none => extractUserIdFromCustomToken t
      userEmail := match opts.customUserEmailExtractor with
        | some f => f t
        | none => extractEmailFromCustomToken t }
  else
    { token := token, userId := none, userEmail := none }

/-! ### Route exclusion matcher (`shouldExcludeRoute`, interceptor lines 393-403) -/

/-- One token of the regex built by `route.replace(/\*/g, '.*')`: each `*`
becomes `.*`, each `.` in the route stays a regex any-character, everything
else is literal. -/
inductive RTok where
  | lit : Char → RTok
  | anyChar : RTok
  | anyStar : RTok
deriving DecidableEq

/-- The characters (besides `*`, which the code rewrites first) that keep a
special meaning — or raise an error — inside `new RegExp`. A route containing
any of them other than `.` is outside the modelled subset of the translation
below, and every general theorem about wildcard routes hypothesizes their
absence. -/
def isRegexMeta (c : Char) : Bool :=
  c == '.' || c == '?' || c == '+' || c == '(' || c == ')' || c == '[' || c == ']' ||
  c == '\x7b' || c == '\x7d' || c == '|' || c == '^' || c == '$' || c == '\\'

/-- No character of the route has a regex meaning of its own (the rewritten
`*` aside), so the `new RegExp` translation is literal-plus-wildcards. -/
def wildcardSafe (route : String) : Bool :=
  route.toList.all (fun c => !(isRegexMeta c))

/-- Translation the code performs on a wildcard route, modelled for routes
whose only regex metacharacters are `*` and `.`: a route containing `?`, `+`,
brackets, braces, parentheses, `|`, anchors or a backslash would keep their
regex meaning (or make `new RegExp` throw) in the code but is literalized
here, so no theorem below draws conclusions about such routes. -/
def regexOfRoute (route : String) : List RTok :=
  route.toList.map (fun c =>
    if c = '*' then RTok.anyStar else if c = '.' then RTok.anyChar else RTok.lit c)

/-- Translation the specification describes: only `*` is special. -/
def globOfRoute (route : String) : List RTok :=
  route.toList.map (fun c => if c = '*' then RTok.anyStar else RTok.lit c)

/-- One step of anchored backtracking regex matching, on explicit fuel so the
function is structurally recursive. Every step shrinks `ps.length + cs.length`,
so `rxMatch` below always supplies enough fuel. -/
def rxMatchFuel : Nat → List RTok → List Char → Bool
  | 0, _, _ => false
  | fuel + 1, ps, cs =>
    match ps, cs with
    | [], [] => true
    | [], _ :: _ => false
    | RTok.anyStar :: ps', cs =>
      rxMatchFuel fuel ps' cs ||
        (match cs with
         | [] => false
         | c :: cs' => isJsDotChar c && rxMatchFuel fuel (RTok.anyStar :: ps') cs')
    | RTok.anyChar :: ps', c :: cs' => isJsDotChar c && rxMatchFuel fuel ps' cs'
    | RTok.anyChar :: _, [] => false
    | RTok.lit a :: ps', c :: cs' => a = c && rxMatchFuel fuel ps' cs'
    | RTok.lit _ :: _, [] => false

/-- Anchored matching of a token list against a character list
(`new RegExp('^' + pattern + '$').test(url)`). -/
def rxMatch (ps : List RTok) (cs : List Char) : Bool :=
  rxMatchFuel (ps.length + cs.length + 1) ps cs

/-- One route's test: regex full match when the route has a `*`,
byte-literal prefix match otherwise. -/
def routeMatchesUrl (route url : String) : Bool :=
  if hasChar route '*' then rxMatch (regexOfRoute route) url.toList
  else startsWithStr url route

/-- The matcher `shouldExcludeRoute`: false when no exclusion list is configured, else
logical OR over the patterns. -/
def shouldExcludeRoute (opts : ModuleOptions) (url : String) : Bool :=
  match opts.excludeRoutes with
  | none => false
  | some routes => routes.any (fun r => routeMatchesUrl r url)

/-- Route exclusion as the specification words it: identical, except that a
wildcard pattern keeps every non-`*` character literal. -/
def specExcluded (url : String) (patterns : List String) : Bool :=
  patterns.any (fun route =>
    if hasChar route '*' then rxMatch (globOfRoute route) url.toList
    else startsWithStr url route)

/-! ### Request info and audit record composition (interceptor lines 405-432, 558-600) -/

/-- The helper `extractRealIp`: `X-Forwarded-For` first entry when present, else the
proxy-header / socket-address / framework-ip fallback chain, else "unknown". -/
def extractRealIp (req : Request) : String :=
  if truthyS (req.getHeader "X-Forwarded-For") then
    trimStr ((splitChar ',' ((req.getHeader "X-Forwarded-For").getD "")).headD "")
  else
    (jsOrS (jsOrS (jsOrS (jsOrS (jsOrS (req.getHeader "X-Real-IP")
      (req.getHeader "X-Client-IP")) req.connRemoteAddress) req.sockRemoteAddress)
      req.ip) (some "unknown")).getD "unknown"

/-- The plain value type the interceptor builds from the framework request. -/
structure RequestInfo where
  method : String
  url : String
  headers : Obj
  query : Obj
  body : Option String
  ip : String
  userAgent : String
deriving DecidableEq

/-- The boundary capture `extractRequestInfo`. -/
def extractRequestInfo (req : Request) : RequestInfo :=
  { method := req.method
    url := req.url
    headers := req.headers
    query := req.query
    body := req.body
    ip := extractRealIp req
    userAgent := (jsOrS (req.getHeader "User-Agent") (some "")).getD "" }

/-- Status code plus optional payload, as captured at settlement. -/
structure ResponseInfo where
  statusCode : Nat
  data : Option String
deriving DecidableEq

/-- The `requestData` object composed when request-body logging is on. -/
structure RequestData where
  body : Option String
  query : Obj
  headers : Obj
deriving DecidableEq

/-- The persisted record shape (`AuditLogData`). -/
structure AuditLogData where
  timestamp : Int
  userId : Option String
  userEmail : Option String
  httpMethod : String
  endpoint : String
  serviceName : Option String
  actionDescription : Option String
  requestData : Option RequestData
  responseData : Option String
  userAgent : String
  ipAddress : String
  token : Option String
  statusCode : Nat
  executionTimeMs : Int
deriving DecidableEq

/-- The composition `createAuditLog`: the record composition: the effective body-logging flags are
the per-call option `??` the global option `??` `false`; `requestData` /
`responseData` are set only under their flag and left `undefined` otherwise. -/
def createAuditLog (timestamp : Int) (requestInfo : RequestInfo)
    (responseInfo : ResponseInfo) (tokenInfo : TokenExtractionResult)
    (executionTime : Int) (auditOptions : AuditLogOptions)
    (opts : ModuleOptions) : AuditLogData :=
  let shouldLogRequestBody := auditOptions.logRequestBody.getD (opts.logRequestBody.getD false)
  let shouldLogResponseBody := auditOptions.logResponseBody.getD (opts.logResponseBody.getD false)
  { timestamp := timestamp
    userId := tokenInfo.userId
    userEmail := tokenInfo.userEmail
    httpMethod := requestInfo.method
    endpoint := requestInfo.url
    serviceName := auditOptions.serviceName
    actionDescription := auditOptions.description
    requestData :=
      if shouldLogRequestBody then
        some { body := requestInfo.body
               query := requestInfo.query
               headers := sanitizeHeaders requestInfo.headers }
      else none
    responseData := if shouldLogResponseBody then responseInfo.data else none
    userAgent := requestInfo.userAgent
    ipAddress := requestInfo.ip
    token := tokenInfo.token
    statusCode := responseInfo.statusCode
    executionTimeMs := executionTime }

/-- Settlement of the wrapped handler: a resolved value (possibly `undefined`)
or a thrown error carrying a message and an optional numeric status. -/
structure ErrObj where
  status : Option Nat
  message : String
deriving DecidableEq

/-- Handler outcome. -/
inductive HandlerOutcome where
  | ok : Option String → HandlerOutcome
  | err : ErrObj → HandlerOutcome
deriving DecidableEq

/-- What one interception produces: the outcome handed back to the framework,
and the audit records scheduled for the deferred write. -/
structure InterceptResult where
  outcome : HandlerOutcome
  scheduled : List AuditLogData
deriving DecidableEq

/-- The orchestrator `AuditLoggerInterceptor.intercept`: no marker → delegate untouched;
excluded route → delegate untouched; otherwise compose exactly one record in
the `tap` (success) or `catchError` (failure) branch — on failure the status is
`error.status || 500`, the payload the error's message, and the error is
re-thrown unchanged. -/
def intercept (opts : ModuleOptions) (marker : Option AuditLogOptions)
    (req : Request) (respStatusCode : Nat) (outcome : HandlerOutcome)
    (timestamp executionTime : Int) : InterceptResult :=
  match marker with
  | none => { outcome := outcome, scheduled := [] }
  | some auditOptions =>
    if shouldExcludeRoute opts req.url then { outcome := outcome, scheduled := [] }
    else
      let requestInfo := extractRequestInfo req
      let tokenInfo := extractTokenInfo opts req
      match outcome with
      | HandlerOutcome.ok v =>
        { outcome := HandlerOutcome.ok v
          scheduled := [createAuditLog timestamp requestInfo
            { statusCode := respStatusCode, data := v } tokenInfo executionTime
            auditOptions opts] }
      | HandlerOutcome.err e =>
        { outcome := HandlerOutcome.err e
          scheduled := [createAuditLog timestamp requestInfo
            { statusCode := jsOrStatus e.status 500, data := some e.message }
            tokenInfo executionTime auditOptions opts] }

/-! ### Persistence write path (`AuditLoggerService.saveAuditLog`) and
retention cleanup (`cleanupOldAuditLogs`) -/

/-- The write path `saveAuditLog`: the store insert runs inside `try`; any failure is logged
and deliberately not re-thrown, so the call always returns normally. -/
def saveAuditLog (store : AuditLogData → Except String Unit)
    (d : AuditLogData) : Except String Unit :=
  match store d with
  | Except.ok _ => Except.ok ()
  | Except.error _ => Except.ok ()

/-- Milliseconds per day of the idealized timeline on which
`cutoffDate.setDate(cutoffDate.getDate() - retentionDays)` is modelled. -/
def msPerDay : Int := 86400000

/-- Outcome of a cleanup run over a store holding rows by timestamp. -/
structure CleanupResult where
  remaining : List Int
  deletedCount : Nat
deriving DecidableEq

/-- The retention job `cleanupOldAuditLogs(retentionDays)`: delete rows with
`timestamp < cutoffDate`, return `result.affected || 0` (the driver may
report no affected-row count). -/
def cleanupOldAuditLogsWith (retentionDays : Int) (now : Int) (rows : List Int)
    (reportAffected : Bool) : CleanupResult :=
  let cutoffDate := now - retentionDays * msPerDay
  let remaining := rows.filter (fun t => !decide (t < cutoffDate))
  let affected : Option Nat :=
    if reportAffected then some (rows.length - remaining.length) else none
  { remaining := remaining, deletedCount := affected.getD 0 }

/-- Calling `cleanupOldAuditLogs()` with the argument omitted: the declared default
`retentionDays = 90` applies. -/
def cleanupOldAuditLogs (now : Int) (rows : List Int)
    (reportAffected : Bool) : CleanupResult :=
  cleanupOldAuditLogsWith 90 now rows reportAffected

/-! ### Specification-worded reference definitions, for the refinement claims -/

/-- Token resolution as the specification words it: the Authorization header
first (Bearer-stripped when the Bearer pattern matches, else the raw header
value), else the first present custom header in order, else the first present
query parameter in order. -/
def specTokenResolution (req : Request) : Option String :=
  if truthyS (req.getHeader "Authorization") then
    let a := (req.getHeader "Authorization").getD ""
    some ((bearerToken a).getD a)
  else
    jsOrS (firstTruthy (customHeaderNames.map req.getHeader))
      (firstTruthy (queryParamNames.map (fun p => objGet p req.query)))

/-- User-id decoding as the specification words it: the same `sub`-first field
priority in the JSON branch as in the JWT branch. -/
def specUserIdFromToken (token : String) : Option String :=
  if hasChar token '.' ∧ (splitChar '.' token).length = 3 then
    match parseJsonFlat (b64urlDecode (jwtMiddle token)) with
    | some o => idLookupJwt o
    | none => none
  else if startsWithStr token "\x7b" then
    match parseJsonFlat token with
    | some o => idLookupJwt o
    | none => none
  else none

/-- A concrete request carrying both an `Authorization: Bearer abc` header and
a `token=zzz` query parameter, used by the concrete instances below. -/
def sampleRequest : Request :=
  { method := "GET", url := "/x",
    headers := [("authorization", "Bearer abc")],
    query := [("token", "zzz")],
    body := none, connRemoteAddress := none, sockRemoteAddress := none, ip := none }

/-! ### Supporting lemmas for the claims -/

theorem firstTruthy_some_truthy (l : List (Option String)) (v : String)
    (h : firstTruthy l = some v) : truthyS (some v) = true := by
  induction l with
  | nil => simp [firstTruthy] at h
  | cons a t ih =>
    unfold firstTruthy at h
    by_cases ht : truthyS a
    · rw [if_pos ht] at h
      rw [← h]
      exact ht
    · rw [if_neg ht] at h
      exact ih h

theorem any_eq_of_forall {α : Type} : ∀ (l : List α) (f g : α → Bool),
    (∀ x ∈ l, f x = g x) → l.any f = l.any g
  | [], _, _, _ => rfl
  | a :: t, f, g, h => by
    simp only [List.any_cons, h a (List.mem_cons_self a t)]
    rw [any_eq_of_forall t f g (fun x hx => h x (List.mem_cons_of_mem a hx))]

theorem not_mem_of_hasChar_eq_false (s : String) (c : Char)
    (h : hasChar s c = false) : c ∉ s.toList := by
  intro hm
  have hel := List.elem_eq_true_of_mem hm
  unfold hasChar at h
  rw [List.contains, hel] at h
  exact Bool.true_eq_false.mp h

theorem regexOfRoute_eq_glob (route : String) (h : hasChar route '.' = false) :
    regexOfRoute route = globOfRoute route := by
  unfold regexOfRoute globOfRoute
  apply List.map_congr_left
  intro c hc
  have hne : c ≠ '.' := by
    intro he
    exact not_mem_of_hasChar_eq_false route '.' h (he ▸ hc)
  simp [hne]

theorem wildcardSafe_no_dot (route : String) (h : wildcardSafe route = true) :
    hasChar route '.' = false := by
  unfold hasChar
  cases hc : route.toList.contains '.' with
  | false => rfl
  | true =>
    have hm : '.' ∈ route.toList := by
      rw [List.contains] at hc
      exact List.mem_of_elem_eq_true hc
    have hall := List.all_eq_true.mp h '.' hm
    simp [isRegexMeta] at hall

/-! ### The claims -/

/-- C1. Marker gating: a request whose handler does not carry the audit marker
produces no audit record — whatever the route-exclusion configuration and the
rest of the options say — and the handler's outcome (result or error) passes
through unchanged. -/
theorem c1_marker_gating (opts : ModuleOptions) (req : Request) (respStatusCode : Nat)
    (outcome : HandlerOutcome) (timestamp executionTime : Int) :
    intercept opts none req respStatusCode outcome timestamp executionTime =
      { outcome := outcome, scheduled := [] } := rfl

/-- C4 counterexample: a header map carrying the sensitive key `authorization`
with an empty value is NOT redacted — the JS truthiness guard skips it — so the
claim that every sensitive key's value is replaced by the marker is false. -/
theorem c4_counterexample :
    sanitizeHeaders [("authorization", "")] = [("authorization", "")] ∧
    objGet "authorization" (sanitizeHeaders [("authorization", "")]) ≠ some REDACTED := by
  decide

/-- C4 (amended). Sanitizer completeness: a header whose key equals one of the
sensitive names and whose value is truthy (non-empty) reads back as the
redaction marker; every other header — including a sensitive key with an empty
value — reads back unchanged; the key sequence is preserved exactly. -/
theorem c4_sanitizer_completeness_amended (hs : Obj) (k : String) :
    objGet k (sanitizeHeaders hs) =
      (if k ∈ sensitiveHeaders ∧ truthyS (objGet k hs) then some REDACTED
       else objGet k hs) ∧
    (sanitizeHeaders hs).map Prod.fst = hs.map Prod.fst := by
  constructor
  · rw [sanitizeHeaders_eq_redactFold]
    exact objGet_redactFold k sensitiveHeaders hs
  · rw [sanitizeHeaders_eq_redactFold]
    exact redactFold_keys sensitiveHeaders hs

/-- C5. Best-effort write: `saveAuditLog` returns normally whatever the store
does, and the outcome an intercepted caller observes never depends on the audit
machinery — it is the handler's own outcome verbatim. -/
theorem c5_best_effort_write :
    (∀ (store : AuditLogData → Except String Unit) (d : AuditLogData),
        saveAuditLog store d = Except.ok ()) ∧
    (∀ (opts : ModuleOptions) (marker : Option AuditLogOptions) (req : Request)
        (sc : Nat) (outcome : HandlerOutcome) (t e : Int),
        (intercept opts marker req sc outcome t e).outcome = outcome) := by
  constructor
  · intro store d
    unfold saveAuditLog
    cases store d <;> rfl
  · intro opts marker req sc outcome t e
    cases marker with
    | none => rfl
    | some m =>
      unfold intercept
      by_cases h : shouldExcludeRoute opts req.url
      · simp [h]
      · cases outcome <;> simp [h]

/-- C9. Sanitizer idempotence and the concrete example: sanitizing twice equals
sanitizing once for every header map, and the documented example redacts
`authorization` while passing `content-type` through. The model is a pure
function on immutable lists, so it cannot mutate its input. -/
theorem c9_sanitize_idempotent :
    (∀ hs : Obj, sanitizeHeaders (sanitizeHeaders hs) = sanitizeHeaders hs) ∧
    sanitizeHeaders [("authorization", "Bearer xyz"), ("content-type", "json")] =
      [("authorization", "[REDACTED]"), ("content-type", "json")] := by
  refine ⟨fun hs => ?_, by decide⟩
  simp only [sanitizeHeaders_eq_redactFold]
  exact redactFold_idem sensitiveHeaders hs

/-- C2. Token resolution priority: the built-in source scan equals the
specification's first-match-wins priority over Authorization header, custom
headers, query parameters; with no custom extractor the scan is what
`extractTokenInfo` records; a configured `customTokenExtractor` replaces it
entirely; and with both `Authorization: Bearer abc` and `token=zzz` present the
extracted token is `abc`. -/
theorem c2_token_resolution_priority (req : Request) (opts : ModuleOptions)
    (f : Request → Option String) :
    extractTokenFromRequest req = specTokenResolution req ∧
    (opts.customTokenExtractor = none →
      (extractTokenInfo opts req).token = extractTokenFromRequest req) ∧
    (opts.customTokenExtractor = some f →
      (extractTokenInfo opts req).token = f req) ∧
    (extractTokenInfo { } sampleRequest).token = some "abc" := by
  refine ⟨?_, ?_, ?_, by decide⟩
  · unfold extractTokenFromRequest specTokenResolution
    by_cases ha : truthyS (req.getHeader "Authorization")
    · simp only [if_pos ha]
      cases bearerToken ((req.getHeader "Authorization").getD "") <;> rfl
    · simp only [if_neg ha]
      cases hf : firstTruthy (customHeaderNames.map req.getHeader) with
      | none => simp [jsOrS, truthyS]
      | some v =>
        have := firstTruthy_some_truthy _ _ hf
        simp [jsOrS, this]
  · intro h
    unfold extractTokenInfo
    rw [h]
    cases ht : truthyS (extractTokenFromRequest req) <;> simp [ht]
  · intro h
    unfold extractTokenInfo
    rw [h]
    cases ht : truthyS (f req) <;> simp [ht]

/-- C2 witness: the custom-extractor clause at a concrete configuration and
the no-custom-extractor clause at the default configuration. -/
theorem c2_token_resolution_priority_witness :
    (extractTokenInfo { customTokenExtractor := some (fun _ => some "T") }
      sampleRequest).token = some "T" ∧
    (extractTokenInfo { } sampleRequest).token = extractTokenFromRequest sampleRequest := by
  have h1 := c2_token_resolution_priority sampleRequest
    { customTokenExtractor := some (fun _ => some "T") } (fun _ => some "T")
  have h2 := c2_token_resolution_priority sampleRequest { } (fun _ => some "T")
  exact ⟨h1.2.2.1 rfl, h2.2.1 rfl⟩

/-- C3 counterexample: on the JSON-shaped token `{"sub":"a","userId":"b"}` the
code returns the `userId` field `b`, while the claimed sub-first priority (the
one the JWT branch uses) would return `a` — the two branches do not share one
field priority. -/
theorem c3_counterexample :
    extractUserIdFromCustomToken "\x7b\"sub\":\"a\",\"userId\":\"b\"\x7d" = some "b" ∧
    specUserIdFromToken "\x7b\"sub\":\"a\",\"userId\":\"b\"\x7d" = some "a" ∧
    (some "b" : Option String) ≠ some "a" := by
  decide

/-- C3 (amended). Identity decoding: a token splitting into exactly three
dot-separated parts has its middle part base64url-decoded and JSON-parsed, with
id priority `sub`, `userId`, `id`, `user_id` and email priority `email`,
`user_email`, `userEmail`; a non-three-part token whose first character is a
brace is parsed whole, with the same email priority but id priority `userId`,
`id`, `user_id`, `sub`; parse failures and all other shapes yield `none`. -/
theorem c3_identity_decoding_amended (tok : String) (o : Obj) :
    (hasChar tok '.' = true → (splitChar '.' tok).length = 3 →
      parseJsonFlat (b64urlDecode (jwtMiddle tok)) = some o →
      extractUserIdFromCustomToken tok =
        jsOrS (jsOrS (jsOrS (objGet "sub" o) (objGet "userId" o)) (objGet "id" o))
          (objGet "user_id" o) ∧
      extractEmailFromCustomToken tok =
        jsOrS (jsOrS (objGet "email" o) (objGet "user_email" o)) (objGet "userEmail" o)) ∧
    (hasChar tok '.' = true → (splitChar '.' tok).length = 3 →
      parseJsonFlat (b64urlDecode (jwtMiddle tok)) = none →
      extractUserIdFromCustomToken tok = none ∧
      extractEmailFromCustomToken tok = none) ∧
    ((splitChar '.' tok).length ≠ 3 → startsWithStr tok "\x7b" = true →
      parseJsonFlat tok = some o →
      extractUserIdFromCustomToken tok =
        jsOrS (jsOrS (jsOrS (objGet "userId" o) (objGet "id" o)) (objGet "user_id" o))
          (objGet "sub" o) ∧
      extractEmailFromCustomToken tok =
        jsOrS (jsOrS (objGet "email" o) (objGet "user_email" o)) (objGet "userEmail" o)) ∧
    ((splitChar '.' tok).length ≠ 3 → startsWithStr tok "\x7b" = true →
      parseJsonFlat tok = none →
      extractUserIdFromCustomToken tok = none ∧
      extractEmailFromCustomToken tok = none) ∧
    ((splitChar '.' tok).length ≠ 3 → startsWithStr tok "\x7b" = false →
      extractUserIdFromCustomToken tok = none ∧
      extractEmailFromCustomToken tok = none) := by
  unfold extractUserIdFromCustomToken extractEmailFromCustomToken
  refine ⟨?_, ?_, ?_, ?_, ?_⟩
  · intro h1 h2 hp
    simp [h1, h2, hp, idLookupJwt, emailLookup]
  · intro h1 h2 hp
    simp [h1, h2, hp]
  · intro h2 hb hp
    simp [h2, hb, hp, idLookupJson, emailLookup]
  · intro h2 hb hp
    simp [h2, hb, hp]
  · intro h2 hb
    simp [h2, hb]

/-- C3 witness: both branches instantiated — the JWT-shaped token of the
specification's example decodes to id `u1` and email `a@b.com`, and a
JSON-shaped token takes the JSON branch. -/
theorem c3_identity_decoding_amended_witness :
    extractUserIdFromCustomToken
      "header.eyJzdWIiOiJ1MSIsImVtYWlsIjoiYUBiLmNvbSJ9.sig" = some "u1" ∧
    extractEmailFromCustomToken
      "header.eyJzdWIiOiJ1MSIsImVtYWlsIjoiYUBiLmNvbSJ9.sig" = some "a@b.com" ∧
    extractUserIdFromCustomToken "\x7b\"id\":\"7\"\x7d" = some "7" := by
  have hj := (c3_identity_decoding_amended
    "header.eyJzdWIiOiJ1MSIsImVtYWlsIjoiYUBiLmNvbSJ9.sig"
    [("sub", "u1"), ("email", "a@b.com")]).1 (by decide) (by decide) (by decide)
  have hb := (c3_identity_decoding_amended "\x7b\"id\":\"7\"\x7d"
    [("id", "7")]).2.2.1 (by decide) (by decide) (by decide)
  exact ⟨hj.1.trans (by decide), hj.2.trans (by decide), hb.1.trans (by decide)⟩

/-- C6 counterexample: a thrown error carrying the present status code `0` is
recorded with status 500, because `error.status || 500` treats `0` as falsy —
so "statusCode taken from the error's carried status code when present" fails
at status `0`. -/
theorem c6_counterexample :
    (intercept { } (some { }) sampleRequest 200
      (HandlerOutcome.err { status := some 0, message := "boom" }) 0 5).scheduled.map
      (fun d => d.statusCode) = [500] ∧
    (some 0 : Option Nat) ≠ none ∧ (0 : Nat) ≠ 500 := by
  decide

/-- C6 (amended). Error path parity: an audited, non-excluded request whose
handler throws produces exactly one record; its status code is the error's
carried code when present and nonzero, 500 otherwise; its `responseData` is the
error's message whenever effective response-body logging is on; and the
original error is re-raised unchanged. -/
theorem c6_error_path_parity_amended (opts : ModuleOptions) (m : AuditLogOptions)
    (req : Request) (sc : Nat) (e : ErrObj) (t ex : Int)
    (hex : shouldExcludeRoute opts req.url = false) :
    (intercept opts (some m) req sc (HandlerOutcome.err e) t ex).outcome =
      HandlerOutcome.err e ∧
    (intercept opts (some m) req sc (HandlerOutcome.err e) t ex).scheduled.length = 1 ∧
    ∀ d ∈ (intercept opts (some m) req sc (HandlerOutcome.err e) t ex).scheduled,
      d.statusCode = (match e.status with
        | some s => if s = 0 then 500 else s
        | none => 500) ∧
      (m.logResponseBody.getD (opts.logResponseBody.getD false) = true →
        d.responseData = some e.message) := by
  have hrec : intercept opts (some m) req sc (HandlerOutcome.err e) t ex =
      { outcome := HandlerOutcome.err e,
        scheduled := [createAuditLog t (extractRequestInfo req)
          { statusCode := jsOrStatus e.status 500, data := some e.message }
          (extractTokenInfo opts req) ex m opts] } := by
    unfold intercept
    simp [hex]
  rw [hrec]
  refine ⟨rfl, rfl, ?_⟩
  intro d hd
  rw [List.mem_singleton] at hd
  subst hd
  constructor
  · show jsOrStatus e.status 500 = _
    cases e.status <;> simp [jsOrStatus]
  · intro hflag
    show (if m.logResponseBody.getD (opts.logResponseBody.getD false) = true
      then some e.message else none) = some e.message
    rw [if_pos hflag]

/-- C6 witness: the amended theorem instantiated on a concrete 404 error with
response-body logging enabled. -/
theorem c6_error_path_parity_amended_witness :
    (intercept { } (some { logResponseBody := some true }) sampleRequest 200
      (HandlerOutcome.err { status := some 404, message := "nf" }) 0 5).outcome =
      HandlerOutcome.err { status := some 404, message := "nf" } :=
  (c6_error_path_parity_amended { } { logResponseBody := some true } sampleRequest 200
    { status := some 404, message := "nf" } 0 5 (by decide)).1

/-- C7 counterexample: exclusion patterns are compiled to a regex with only `*`
rewritten, so a `.` in a wildcard pattern matches any character instead of a
literal dot: pattern `/a.b/*` excludes the path `/aXb/c`, which the claimed
"only `*` is special, full-string match" semantics does not. -/
theorem c7_counterexample :
    shouldExcludeRoute { excludeRoutes := some ["/a.b/*"] } "/aXb/c" = true ∧
    specExcluded "/aXb/c" ["/a.b/*"] = false := by
  decide

/-- C7 (amended). Route exclusion: for patterns whose wildcard entries contain
no regex metacharacter besides `*` itself (no `.`, `?`, `+`, brackets, braces,
parentheses, `|`, anchors or backslash — on such entries `new RegExp` treats
every other character literally), the matcher is exactly the specification's
semantics — any-pattern OR, full-string wildcard match for patterns with `*`,
byte-literal prefix match otherwise — and on `["/health", "/api/*"]` the paths
`/health` and `/api/anything` are excluded while `/apiv2` is not. -/
theorem c7_route_exclusion_amended (url : String) (patterns : List String)
    (hp : ∀ r ∈ patterns, hasChar r '*' = true → wildcardSafe r = true) :
    shouldExcludeRoute { excludeRoutes := some patterns } url =
      specExcluded url patterns ∧
    shouldExcludeRoute { excludeRoutes := some ["/health", "/api/*"] } "/health" = true ∧
    shouldExcludeRoute { excludeRoutes := some ["/health", "/api/*"] } "/api/anything" = true ∧
    shouldExcludeRoute { excludeRoutes := some ["/health", "/api/*"] } "/apiv2" = false := by
  refine ⟨?_, by decide, by decide, by decide⟩
  show patterns.any (fun r => routeMatchesUrl r url) = specExcluded url patterns
  unfold specExcluded
  apply any_eq_of_forall
  intro r hr
  unfold routeMatchesUrl
  by_cases hw : hasChar r '*' = true
  · rw [if_pos hw, if_pos hw,
      regexOfRoute_eq_glob r (wildcardSafe_no_dot r (hp r hr hw))]
  · rw [if_neg hw, if_neg hw]

/-- C7 witness: the amended equivalence instantiated on the documented pattern
list, whose wildcard entry `/api/*` contains no regex metacharacter. -/
theorem c7_route_exclusion_amended_witness :
    shouldExcludeRoute { excludeRoutes := some ["/health", "/api/*"] } "/apiv2" =
      specExcluded "/apiv2" ["/health", "/api/*"] :=
  (c7_route_exclusion_amended "/apiv2" ["/health", "/api/*"] (by decide)).1

/-- C8 counterexample: with effective response-body logging on, a handler that
resolves with no value yields a record whose `responseData` is absent — so
"`responseData` present exactly when the flag is true" fails. -/
theorem c8_counterexample :
    (({ logResponseBody := some true } : AuditLogOptions).logResponseBody.getD
      (({ } : ModuleOptions).logResponseBody.getD false) = true) ∧
    (intercept { } (some { logResponseBody := some true }) sampleRequest 200
      (HandlerOutcome.ok none) 0 5).scheduled.map (fun d => d.responseData) = [none] := by
  decide

/-- C8 (amended). Policy merge and optional-field presence: the effective
body-logging flags are per-call value when present, else global value when
present, else `false`; `requestData` is present exactly when its flag is true;
`responseData` equals the captured payload under its flag and is absent
otherwise — hence present exactly when the flag is true AND the captured
payload is itself present (on the error path the payload is always present). -/
theorem c8_policy_merge_amended (timestamp : Int) (ri : RequestInfo)
    (resp : ResponseInfo) (ti : TokenExtractionResult) (ex : Int)
    (ao : AuditLogOptions) (opts : ModuleOptions) :
    (createAuditLog timestamp ri resp ti ex ao opts).requestData.isSome =
      ao.logRequestBody.getD (opts.logRequestBody.getD false) ∧
    (createAuditLog timestamp ri resp ti ex ao opts).responseData =
      (if ao.logResponseBody.getD (opts.logResponseBody.getD false) then resp.data
       else none) ∧
    (createAuditLog timestamp ri resp ti ex ao opts).responseData.isSome =
      (ao.logResponseBody.getD (opts.logResponseBody.getD false) && resp.data.isSome) := by
  refine ⟨?_, rfl, ?_⟩
  · unfold createAuditLog
    by_cases h : ao.logRequestBody.getD (opts.logRequestBody.getD false) = true <;>
      simp [h]
  · unfold createAuditLog
    by_cases h : ao.logResponseBody.getD (opts.logResponseBody.getD false) = true <;>
      simp [h]

/-- C10. Retention cleanup default: the no-argument call runs with
`retentionDays = 90`; it keeps exactly the rows not strictly older than 90 days
before now and deletes exactly the strictly-older ones; the returned count is
the number of deleted rows when the store reports it, and `0` when the store
reports no affected-row count. -/
theorem c10_cleanup_default (now : Int) (rows : List Int) (rep : Bool) :
    cleanupOldAuditLogs now rows rep = cleanupOldAuditLogsWith 90 now rows rep ∧
    (cleanupOldAuditLogs now rows rep).remaining =
      rows.filter (fun t => !decide (t < now - 90 * msPerDay)) ∧
    (∀ t : Int, t ∈ (cleanupOldAuditLogs now rows rep).remaining ↔
      t ∈ rows ∧ ¬(t < now - 90 * msPerDay)) ∧
    (cleanupOldAuditLogs now rows true).deletedCount =
      rows.length - (rows.filter (fun t => !decide (t < now - 90 * msPerDay))).length ∧
    (cleanupOldAuditLogs now rows false).deletedCount = 0 := by
  refine ⟨rfl, rfl, ?_, rfl, rfl⟩
  intro t
  simp [cleanupOldAuditLogs, cleanupOldAuditLogsWith, List.mem_filter]

end AuditLogger
